import Mathlib

/-!
Verification development for the cw-tail repository.

The repository tails an AWS CloudWatch log group.  The definitions below are a
shallow embedding of the Python sources:

* `src/cw_tail/utils.py` — `chunk_list`, `parse_time_string`;
* `src/cw_tail/cw_tail.py` — the fetch / filter / advance steps of
  `CloudWatchTailer.tail`, `_get_included_streams`, `_highlight_multiple`;
* `src/cw_tail.py` — the legacy single-file tailer (its display loop applies
  client-side stream exclusion);
* `src/cw_tail/formatters.py` — `json_formatter` together with a model of the
  `json.loads` / `json.dumps` fragment it relies on.

Machine integers do not overflow in the modelled fragment, so timestamps are
plain `Int` and counters are `Nat`.  Python exceptions escaping a function are
modelled with `Except PyErr`; a caught exception is handled inside the
definition exactly where the source catches it.
-/

/-- Python membership test `need in hay` on strings restricted to one starting
position: true when `need` is a prefix of the remaining character list. -/
def listStarts : List Char → List Char → Bool
  | [], _ => true
  | _ :: _, [] => false
  | a :: as, b :: bs => a == b && listStarts as bs

/-- Helper for `containsSub`: scans every suffix of the haystack. -/
def containsSubAux (need : List Char) : List Char → Bool
  | [] => need.isEmpty
  | c :: rest => listStarts need (c :: rest) || containsSubAux need rest

/-- Python substring test `need in hay` (`str.__contains__`). -/
def containsSub (hay need : String) : Bool :=
  containsSubAux need.data hay.data

/-- Characters removed by Python `str.strip()` with no argument. -/
def isPySpace (c : Char) : Bool :=
  c = ' ' || c = '\t' || c = '\n' || c = '\r' || c = '\x0b' || c = '\x0c'

/-- Python `str.strip()`. -/
def pyStrip (s : String) : String :=
  String.mk (((s.data.dropWhile isPySpace).reverse.dropWhile isPySpace).reverse)

/-- Fueled worker for `chunkList`; the fuel bounds the number of produced
chunks (at most the length of the list once the chunk size is positive). -/
def chunkListGo : Nat → List α → Nat → List (List α)
  | 0, _, _ => []
  | fuel + 1, l, n => if l.isEmpty then [] else l.take n :: chunkListGo fuel (l.drop n) n

/-- Embeds `chunk_list(lst, n)` from `src/cw_tail/utils.py` (a generator doing
`lst[i:i+n]` for `i in range(0, len(lst), n)`).  The source is only called
with `n = 100`; Python raises `ValueError` for step `0`, which is outside the
modelled inputs. -/
def chunkList (l : List α) (n : Nat) : List (List α) :=
  chunkListGo l.length l n

/-- One CloudWatch log event as consumed by the tail loop
(`e["timestamp"]`, `e["message"]`, `e["logStreamName"]`). -/
structure LogEvent where
  timestamp : Int
  message : String
  logStreamName : String
deriving DecidableEq

/-- The varying fields of one `filter_log_events` call built in
`CloudWatchTailer.tail` (`src/cw_tail/cw_tail.py` lines 287-318): the window
lower bound `startTime`, the optional `logStreamNames` chunk, and the optional
`nextToken`.  `logGroupName`, `interleaved` and `filterPattern` are constants
of a session and are omitted. -/
structure FetchReq where
  startTime : Int
  streams : Option (List String)
  token : Option String
deriving DecidableEq

/-- One `filter_log_events` response: `resp.get("events", [])` and
`resp.get("nextToken")`. -/
structure FetchResp where
  events : List LogEvent
  nextToken : Option String

/-- The mutable loop state of `CloudWatchTailer.tail`: `start_time` and
`next_token`. -/
structure TailState where
  startTime : Int
  nextToken : Option String
deriving DecidableEq

/-- Result of the fetch part of one polling iteration: the gathered
`all_events`, the value of `next_token` after the loop, and the log of issued
requests (in order). -/
structure FetchOut where
  events : List LogEvent
  token : Option String
  reqs : List FetchReq
deriving DecidableEq

/-- Embeds the chunked fetch loop of `CloudWatchTailer.tail`
(`for chunk in chunk_list(included_streams, 100): ...`): one call per chunk,
`all_events.extend(resp["events"])`, and `next_token = resp.get("nextToken")`
after every call, so the token returned by one chunk call is passed into the
next one. -/
def fetchChunks (api : FetchReq → FetchResp) (startTime : Int) :
    List (List String) → Option String → FetchOut
  | [], tok => ⟨[], tok, []⟩
  | c :: cs, tok =>
    let req : FetchReq := ⟨startTime, some c, tok⟩
    let resp := api req
    let restOut := fetchChunks api startTime cs resp.nextToken
    ⟨resp.events ++ restOut.events, restOut.token, req :: restOut.reqs⟩

/-- Embeds the fetch part of one iteration of the `while True` loop in
`CloudWatchTailer.tail`: chunked calls when `included_streams` is non-empty,
otherwise a single unscoped call; `next_token` is whatever the state carried
over from the previous iteration. -/
def fetchPhase (api : FetchReq → FetchResp) (st : TailState)
    (includedStreams : List String) : FetchOut :=
  if includedStreams.isEmpty then
    let req : FetchReq := ⟨st.startTime, none, st.nextToken⟩
    let resp := api req
    ⟨resp.events, resp.nextToken, [req]⟩
  else
    fetchChunks api st.startTime (chunkList includedStreams 100) st.nextToken

/-- Embeds `max(e["timestamp"] for e in all_events)` (defined for non-empty
input; the `0` default is never reached by the tail loop, which guards with
`if all_events:`). -/
def listMax : List Int → Int
  | [] => 0
  | a :: rest => rest.foldl max a

/-- Embeds the window-advance step of `CloudWatchTailer.tail` (lines 351-354,
identical in `src/cw_tail.py` lines 173-176):

`if all_events: max_ts = max(...); if max_ts > start_time: start_time = max_ts + 1`. -/
def advanceWindow (startTime : Int) (tss : List Int) : Int :=
  if tss.isEmpty then startTime
  else if listMax tss > startTime then listMax tss + 1 else startTime

/-- Embeds the client-side exclude-token filter of both tailers:
`if self.exclude_tokens: all_events = [e for e in all_events if not any(token in e["message"] ...)]`. -/
def excludeByTokens (events : List LogEvent) (excludeTokens : List String) : List LogEvent :=
  if excludeTokens.isEmpty then events
  else events.filter (fun e => ! excludeTokens.any (fun t => containsSub e.message t))

/-- Observable outcome of one polling iteration of the package tailer. -/
structure IterOut where
  state : TailState
  rendered : List LogEvent
  reqs : List FetchReq

/-- Embeds one iteration of the `while True` loop of
`CloudWatchTailer.tail` in `src/cw_tail/cw_tail.py`: fetch (chunked or
unscoped), exclude-token filtering, display of every surviving event (the
package tailer has no client-side stream-name check in its display loop), and
the window-advance step computed from the filtered batch. -/
def tailIter (api : FetchReq → FetchResp) (excludeTokens : List String)
    (st : TailState) (includedStreams : List String) : IterOut :=
  let out := fetchPhase api st includedStreams
  let evs := excludeByTokens out.events excludeTokens
  let newStart := advanceWindow st.startTime (evs.map (·.timestamp))
  ⟨⟨newStart, out.token⟩, evs, out.reqs⟩

/-- Embeds `_get_included_streams` applied to the full stream listing of the
log group: a name is kept when `not self.exclude_streams or not any(x in name
for x in self.exclude_streams)`.  (The pagination of `describe_log_streams`
only partitions the listing and is immaterial to the produced set.) -/
def getIncludedStreams (allStreams excludeStreams : List String) : List String :=
  allStreams.filter
    (fun name => excludeStreams.isEmpty || ! excludeStreams.any (fun x => containsSub name x))

/-- Embeds the display loop of the legacy tailer `src/cw_tail.py` (lines
142-170): exclude-token filtering of the batch, then per event
`if self.exclude_streams and any(stream in stream_name ...): continue`.
Returns the events for which a line is printed. -/
def legacyRendered (events : List LogEvent) (excludeTokens excludeStreams : List String) :
    List LogEvent :=
  let evs :=
    if excludeTokens.isEmpty then events
    else events.filter (fun e => ! excludeTokens.any (fun t => containsSub e.message t))
  evs.filter
    (fun e => ! (! excludeStreams.isEmpty && excludeStreams.any (fun x => containsSub e.logStreamName x)))

/-- Value of a run of ASCII digits, as computed by Python `int`. -/
def digitsToNat (ds : List Char) : Nat :=
  ds.foldl (fun a c => a * 10 + (c.toNat - 48)) 0

/-- Model of matching `^(\d+)([hms])$` with `re.IGNORECASE` against an
already-stripped string: a non-empty digit run followed by exactly one unit
letter.  Returns the numeric value and the lowercased unit.  (Since `[hms]`
never matches a digit, the greedy `\d+` needs no backtracking.) -/
def timeRe (s : String) : Option (Nat × Char) :=
  let cs := s.data
  let ds := cs.takeWhile Char.isDigit
  let rest := cs.dropWhile Char.isDigit
  if ds.isEmpty then none
  else
    match rest with
    | [u] =>
      if u.toLower = 'h' || u.toLower = 'm' || u.toLower = 's' then
        some (digitsToNat ds, u.toLower)
      else none
    | _ => none

/-- Embeds `parse_time_string` (`src/cw_tail/utils.py` lines 139-155,
identical in `src/cw_tail.py` lines 186-202). -/
def parseTimeString (timeStr : String) : Nat :=
  match timeRe (pyStrip timeStr) with
  | none => 3600
  | some (v, u) =>
    if u = 'h' then v * 3600
    else if u = 'm' then v * 60
    else if u = 's' then v
    else 3600

/-- Python regex word character (`\w`) restricted to ASCII, which covers every
input appearing in the verified properties. -/
def isWordChar (c : Char) : Bool :=
  c.isAlphanum || c = '_'

/-- Wordness of the character on one side of a position; beyond either end of
the string counts as non-word, as in Python `re`. -/
def wordOpt : Option Char → Bool
  | none => false
  | some c => isWordChar c

/-- The zero-width `\b` assertion between two neighbouring characters. -/
def boundaryB (prev next : Option Char) : Bool :=
  wordOpt prev != wordOpt next

/-- Case-insensitive prefix test (`re.IGNORECASE` literal matching). -/
def ciStarts : List Char → List Char → Bool
  | [], _ => true
  | _ :: _, [] => false
  | a :: as, b :: bs => a.toLower == b.toLower && ciStarts as bs

/-- Whether the pattern `\b<lit>\b` (compiled with `re.IGNORECASE`) matches at
the current position: `prev` is the character before the position, `s` the
remaining input. -/
def matchAt (lit : List Char) (prev : Option Char) (s : List Char) : Bool :=
  boundaryB prev s.head? && ciStarts lit s &&
    boundaryB (s.get? (lit.length - 1)) (s.get? lit.length)

/-- Fueled scan embedding `pattern.finditer(message)` for the pattern
`\b<lit>\b`: leftmost match first, continuing after the end of each match.
The fuel bounds the number of scan steps (one per consumed character).  The
empty literal never arises from the source call sites and is treated as
matching nowhere. -/
def findIterGo : Nat → List Char → Option Char → List Char → Nat → List (Nat × Nat)
  | 0, _, _, _, _ => []
  | fuel + 1, lit, prev, s, pos =>
    match s with
    | [] => []
    | c :: rest =>
      if !lit.isEmpty && matchAt lit prev (c :: rest) then
        (pos, pos + lit.length) ::
          findIterGo fuel lit ((c :: rest).get? (lit.length - 1))
            ((c :: rest).drop lit.length) (pos + lit.length)
      else
        findIterGo fuel lit (some c) rest (pos + 1)

/-- All matches of `\b<tok>\b` in `msg`, as `(start, end)` spans
(`match.span()` in `_highlight_multiple`). -/
def findIter (tok : String) (msg : String) : List (Nat × Nat) :=
  findIterGo (msg.length + 1) tok.data none msg.data 0

/-- A `rich.text.Text` value as produced by `_highlight_multiple`: the
unchanged message plus the list of `stylize(style, start, end)` calls in
application order. -/
structure Styled where
  text : String
  spans : List (Nat × Nat × String)
deriving DecidableEq

/-- Embeds `CloudWatchTailer._highlight_multiple`
(`src/cw_tail/cw_tail.py` lines 235-258) for tokens whose effective pattern is
a word-boundary-wrapped literal.  The source first tries
`re.compile(rf"\b{token}\b", re.IGNORECASE)` and, when compilation fails
(`re.error`), falls back to `re.compile(rf"\b{re.escape(token)}\b",
re.IGNORECASE)`.  For a token with no regex metacharacters the first compile
succeeds and matches the token literally; for a token that is an invalid
regex (such as "(unbalanced") the fallback escapes it into the same literal.
Both paths therefore match the literal token between `\b` assertions, which
is what this definition computes; tokens acting as non-trivial regexes are
outside the verified properties.  No path raises. -/
def highlightMultiple (message : String) (tokenStyles : List (String × String)) : Styled :=
  ⟨message,
    tokenStyles.foldl
      (fun acc ts => acc ++ (findIter ts.1 message).map (fun p => (p.1, p.2, ts.2))) []⟩

/-- Python exceptions that can escape `json_formatter`; `recursionError`
models the interpreter recursion limit that bounds `json.loads` and the
recursive `clean_dict` on deeply nested data. -/
inductive PyErr where
  | typeError
  | attributeError
  | valueError
  | recursionError
deriving DecidableEq

/-- A Python value produced by `json.loads`: `None`, `bool`, a number (kept as
its literal text — faithful for the canonically written numbers appearing
here, and numbers are never compared to strings by the source), `str`,
`list`, and insertion-ordered `dict`. -/
inductive J where
  | null
  | jbool (b : Bool)
  | num (lit : String)
  | str (s : String)
  | arr (xs : List J)
  | obj (kvs : List (String × J))

/-- JSON whitespace skipped by `json.loads` between tokens. -/
def skipWs : List Char → List Char
  | [] => []
  | c :: rest => if c = ' ' || c = '\t' || c = '\n' || c = '\r' then skipWs rest else c :: rest

/-- Value of one hexadecimal digit, if any. -/
def hexVal (c : Char) : Option Nat :=
  if '0' ≤ c ∧ c ≤ '9' then some (c.toNat - 48)
  else if 'a' ≤ c ∧ c ≤ 'f' then some (c.toNat - 87)
  else if 'A' ≤ c ∧ c ≤ 'F' then some (c.toNat - 55)
  else none

/-- Single-character JSON string escapes accepted after a backslash. -/
def escChar (c : Char) : Option Char :=
  if c = '"' then some '"'
  else if c = '\\' then some '\\'
  else if c = '/' then some '/'
  else if c = 'b' then some '\x08'
  else if c = 'f' then some '\x0c'
  else if c = 'n' then some '\n'
  else if c = 'r' then some '\r'
  else if c = 't' then some '\t'
  else none

/-- Body of a JSON string literal after the opening quote: returns the decoded
characters and the input after the closing quote.  `\uXXXX` escapes decode to
the code point (surrogate pairing is outside the modelled inputs); unescaped
control characters are rejected, as in strict `json.loads`. -/
def parseStrBody : List Char → Option (List Char × List Char)
  | [] => none
  | c :: rest =>
    if c = '"' then some ([], rest)
    else if c = '\\' then
      match rest with
      | [] => none
      | e :: rest2 =>
        if e = 'u' then
          match rest2 with
          | h1 :: h2 :: h3 :: h4 :: rest3 =>
            match hexVal h1, hexVal h2, hexVal h3, hexVal h4 with
            | some a, some b, some c2, some d =>
              match parseStrBody rest3 with
              | some (cs, r) => some (Char.ofNat (((a * 16 + b) * 16 + c2) * 16 + d) :: cs, r)
              | none => none
            | _, _, _, _ => none
          | _ => none
        else
          match escChar e with
          | some ch =>
            match parseStrBody rest2 with
            | some (cs, r) => some (ch :: cs, r)
            | none => none
          | none => none
    else if c.toNat < 32 then none
    else
      match parseStrBody rest with
      | some (cs, r) => some (c :: cs, r)
      | none => none

/-- Integer part of a JSON number: `0` or a non-zero digit followed by digits. -/
def scanIntPart (s : List Char) : Option (List Char × List Char) :=
  match s with
  | [] => none
  | c :: r =>
    if c = '0' then some (['0'], r)
    else if c.isDigit then some (c :: r.takeWhile Char.isDigit, r.dropWhile Char.isDigit)
    else none

/-- Optional fraction part `\.[0-9]+` of a JSON number. -/
def scanFrac (s : List Char) : Option (List Char × List Char) :=
  match s with
  | '.' :: r =>
    let ds := r.takeWhile Char.isDigit
    if ds.isEmpty then none else some ('.' :: ds, r.dropWhile Char.isDigit)
  | _ => some ([], s)

/-- Optional exponent part `[eE][+-]?[0-9]+` of a JSON number. -/
def scanExp (s : List Char) : Option (List Char × List Char) :=
  match s with
  | [] => some ([], [])
  | c :: r =>
    if c = 'e' || c = 'E' then
      let (sg, r2) : List Char × List Char :=
        match r with
        | '+' :: rr => (['+'], rr)
        | '-' :: rr => (['-'], rr)
        | rr => ([], rr)
      let ds := r2.takeWhile Char.isDigit
      if ds.isEmpty then none else some (c :: (sg ++ ds), r2.dropWhile Char.isDigit)
    else some ([], s)

/-- A JSON number literal `-?(0|[1-9][0-9]*)(\.[0-9]+)?([eE][+-]?[0-9]+)?`,
returned as its text. -/
def parseNum (s : List Char) : Option (List Char × List Char) :=
  let (sign, s1) : List Char × List Char :=
    match s with
    | '-' :: r => (['-'], r)
    | r => ([], r)
  match scanIntPart s1 with
  | none => none
  | some (ip, s2) =>
    match scanFrac s2 with
    | none => none
    | some (fp, s3) =>
      match scanExp s3 with
      | none => none
      | some (ep, s4) => some (sign ++ ip ++ fp ++ ep, s4)

/-- Insertion of a parsed member into the dict under construction:
`dict[key] = value` keeps the position of an existing key and updates its
value, otherwise appends. -/
def objInsert (kvs : List (String × J)) (k : String) (v : J) : List (String × J) :=
  if kvs.any (fun p => p.1 == k) then
    kvs.map (fun p => if p.1 == k then (p.1, v) else p)
  else kvs ++ [(k, v)]

/-- Mode of the fueled JSON parser: a value, the continuation of an array
after its first element, or the continuation of an object after its first
member. -/
inductive PMode where
  | val
  | arrRest (acc : List J)
  | objRest (acc : List (String × J))

/-- Fueled recursive-descent parser for the JSON fragment `json.loads`
accepts.  Every recursive call follows the consumption of at least one input
character, so fuel `length + 1` never exhausts on inputs the grammar accepts
within the modelled nesting depth (exhaustion mirrors `RecursionError` and
surfaces as a parse failure). -/
def parseF : Nat → PMode → List Char → Option (J × List Char)
  | 0, _, _ => none
  | fuel + 1, PMode.val, s =>
    match skipWs s with
    | [] => none
    | c :: rest =>
      if c = 'n' then
        match rest with
        | 'u' :: 'l' :: 'l' :: r => some (J.null, r)
        | _ => none
      else if c = 't' then
        match rest with
        | 'r' :: 'u' :: 'e' :: r => some (J.jbool true, r)
        | _ => none
      else if c = 'f' then
        match rest with
        | 'a' :: 'l' :: 's' :: 'e' :: r => some (J.jbool false, r)
        | _ => none
      else if c = '"' then
        match parseStrBody rest with
        | some (cs, r) => some (J.str (String.mk cs), r)
        | none => none
      else if c = '-' || c.isDigit then
        match parseNum (c :: rest) with
        | some (lit, r) => some (J.num (String.mk lit), r)
        | none => none
      else if c = '[' then
        match skipWs rest with
        | ']' :: r => some (J.arr [], r)
        | r2 =>
          match parseF fuel PMode.val r2 with
          | some (v, r3) => parseF fuel (PMode.arrRest [v]) r3
          | none => none
      else if c = '\x7b' then
        match skipWs rest with
        | '\x7d' :: r => some (J.obj [], r)
        | '"' :: r2 =>
          match parseStrBody r2 with
          | some (kcs, r3) =>
            match skipWs r3 with
            | ':' :: r4 =>
              match parseF fuel PMode.val r4 with
              | some (v, r5) => parseF fuel (PMode.objRest (objInsert [] (String.mk kcs) v)) r5
              | none => none
            | _ => none
          | none => none
        | _ => none
      else none
  | fuel + 1, PMode.arrRest acc, s =>
    match skipWs s with
    | ',' :: r =>
      match parseF fuel PMode.val r with
      | some (v, r2) => parseF fuel (PMode.arrRest (acc ++ [v])) r2
      | none => none
    | ']' :: r => some (J.arr acc, r)
    | _ => none
  | fuel + 1, PMode.objRest acc, s =>
    match skipWs s with
    | ',' :: r =>
      match skipWs r with
      | '"' :: r2 =>
        match parseStrBody r2 with
        | some (kcs, r3) =>
          match skipWs r3 with
          | ':' :: r4 =>
            match parseF fuel PMode.val r4 with
            | some (v, r5) => parseF fuel (PMode.objRest (objInsert acc (String.mk kcs) v)) r5
            | none => none
          | _ => none
        | none => none
      | _ => none
    | '\x7d' :: r => some (J.obj acc, r)
    | _ => none

/-- Embeds `json.loads(message)` as called by `json_formatter`: parse one
value and require only whitespace after it; `none` is the
`json.JSONDecodeError` case, the only exception the formatter catches. -/
def parseJsonTop (message : String) : Option J :=
  match parseF (message.length + 1) PMode.val message.data with
  | some (v, rest) => if (skipWs rest).isEmpty then some v else none
  | none => none

/-- Python `value == key` where `key` is a `str`: only a `str` with the same
characters compares equal (the source compares parsed values against string
option fragments only). -/
def pyEqStr (v : J) (s : String) : Bool :=
  match v with
  | J.str t => t == s
  | _ => false

/-- Embeds one step of the `remove_keys` loop of `json_formatter`:
`if key in message_as_dict: message_as_dict.pop(key)`.  On a `dict` this is a
top-level pop; on other parsed values the Python operations raise: `in` on a
number, bool or `None` is a `TypeError`; `in` on a `list` succeeding leads to
`list.pop(str)`, a `TypeError`; `in` on a `str` succeeding leads to
`str.pop`, an `AttributeError`. -/
def removeOne (v : J) (key : String) : Except PyErr J :=
  match v with
  | J.obj kvs =>
    if kvs.any (fun p => p.1 == key) then
      Except.ok (J.obj (kvs.eraseP (fun p => p.1 == key)))
    else Except.ok (J.obj kvs)
  | J.arr xs =>
    if xs.any (fun x => pyEqStr x key) then Except.error PyErr.typeError
    else Except.ok (J.arr xs)
  | J.str s =>
    if containsSub s key then Except.error PyErr.attributeError
    else Except.ok (J.str s)
  | _ => Except.error PyErr.typeError

/-- Sequencing of a fallible step over a list of option fragments, stopping at
the first raised exception (the Python `for` loop). -/
def foldExcept (f : J → String → Except PyErr J) : J → List String → Except PyErr J
  | v, [] => Except.ok v
  | v, k :: rest =>
    match f v k with
    | Except.error e => Except.error e
    | Except.ok v2 => foldExcept f v2 rest

/-- Python `s.split(",")` on the character list: split at every comma. -/
def splitCommaChars : List Char → List (List Char)
  | [] => [[]]
  | c :: rest =>
    if c = ',' then [] :: splitCommaChars rest
    else
      match splitCommaChars rest with
      | [] => [[c]]
      | g :: gs => (c :: g) :: gs

/-- Python `s.split(",")`. -/
def pySplitComma (s : String) : List String :=
  (splitCommaChars s.data).map String.mk

/-- Embeds the `remove_keys` phase of `json_formatter`
(`src/cw_tail/formatters.py` lines 34-38): guarded by the truthiness of
`kwargs.get("remove_keys")` (absent or empty string means skip), then
`for key in ... .split(","): key = key.strip(); if key in d: d.pop(key)`. -/
def removePhase (v : J) (removeKeys : String) : Except PyErr J :=
  if removeKeys.isEmpty then Except.ok v
  else foldExcept removeOne v ((pySplitComma removeKeys).map pyStrip)

/-- Worker for `splitColon1`: split at the first colon, if any. -/
def splitColon1Chars : List Char → Option (List Char × List Char)
  | [] => none
  | c :: rest =>
    if c = ':' then some ([], rest)
    else
      match splitColon1Chars rest with
      | some (k, v) => some (c :: k, v)
      | none => none

/-- Python `s.split(":", 1)` unpacked into two names: `none` models the
`ValueError` when there is no colon. -/
def splitColon1 (s : String) : Option (String × String) :=
  match splitColon1Chars s.data with
  | some (k, v) => some (String.mk k, String.mk v)
  | none => none

/-- Embeds one step of the `key_value_pairs` loop of `json_formatter` (lines
40-43): `k, v = pair.strip().split(":", 1)` (`ValueError` when unpacking
fails), then `if k in d and d[k] == v: d.pop(k)`.  Non-dict parsed values
raise as in `removeOne`, except that indexing a `list` or `str` with the
string `k` is a `TypeError`. -/
def kvOne (v : J) (pair : String) : Except PyErr J :=
  match splitColon1 (pyStrip pair) with
  | none => Except.error PyErr.valueError
  | some (k, val) =>
    match v with
    | J.obj kvs =>
      match kvs.find? (fun p => p.1 == k) with
      | some p =>
        if pyEqStr p.2 val then Except.ok (J.obj (kvs.eraseP (fun q => q.1 == k)))
        else Except.ok (J.obj kvs)
      | none => Except.ok (J.obj kvs)
    | J.arr xs =>
      if xs.any (fun x => pyEqStr x k) then Except.error PyErr.typeError
      else Except.ok (J.arr xs)
    | J.str s =>
      if containsSub s k then Except.error PyErr.typeError
      else Except.ok (J.str s)
    | _ => Except.error PyErr.typeError

/-- Embeds the `key_value_pairs` phase of `json_formatter` (lines 39-43),
guarded by the truthiness of `kwargs.get("key_value_pairs")`. -/
def kvPhase (v : J) (keyValuePairs : String) : Except PyErr J :=
  if keyValuePairs.isEmpty then Except.ok v
  else foldExcept kvOne v (pySplitComma keyValuePairs)

/-- Python `v.strip().replace("\n", " ")` applied to a string leaf by
`clean_dict`. -/
def pyCleanStr (s : String) : String :=
  String.mk ((pyStrip s).data.map (fun c => if c = '\n' then ' ' else c))

/-- Python `a < b` on strings: lexicographic comparison by code points. -/
def strLtL : List Char → List Char → Bool
  | [], [] => false
  | [], _ :: _ => true
  | _ :: _, [] => false
  | a :: as, b :: bs =>
    if a.toNat < b.toNat then true
    else if b.toNat < a.toNat then false
    else strLtL as bs

/-- Insertion step of `sortKvs`, placing a member after every member with a
key not greater than its own. -/
def insertByKey (p : String × J) : List (String × J) → List (String × J)
  | [] => [p]
  | q :: rest => if strLtL p.1.data q.1.data then p :: q :: rest else q :: insertByKey p rest

/-- Embeds `OrderedDict(sorted(message_as_dict.items()))`: dict keys are
unique, so `sorted` compares the key components only. -/
def sortKvs : List (String × J) → List (String × J)
  | [] => []
  | p :: rest => insertByKey p (sortKvs rest)

/-- Fallible map over list elements, stopping at the first raised exception
(the Python list comprehension `[clean_dict(i) for i in v]`). -/
def exceptMapList (f : J → Except PyErr J) : List J → Except PyErr (List J)
  | [] => Except.ok []
  | x :: rest =>
    match f x with
    | Except.error e => Except.error e
    | Except.ok y =>
      match exceptMapList f rest with
      | Except.error e => Except.error e
      | Except.ok ys => Except.ok (y :: ys)

/-- Fallible map over the values of dict members, keys untouched (the Python
`for k, v in d.items(): d[k] = ...` loop). -/
def exceptMapEntries (f : J → Except PyErr J) : List (String × J) → Except PyErr (List (String × J))
  | [] => Except.ok []
  | (k, v) :: rest =>
    match f v with
    | Except.error e => Except.error e
    | Except.ok w =>
      match exceptMapEntries f rest with
      | Except.error e => Except.error e
      | Except.ok ws => Except.ok ((k, w) :: ws)

/-- Embeds `clean_dict` of `json_formatter` (lines 20-30).  The argument must
be a `dict`, otherwise `message_as_dict.items()` raises `AttributeError` —
including for every non-dict element of a nested `list`, which is passed to
`clean_dict` directly by `[clean_dict(i) for i in v]`.  String values are
stripped and their newlines replaced; `if kwargs.get("sort")` re-sorts the
members at every level.  Fuel bounds the recursion depth
(`RecursionError`). -/
def cleanDictF : Nat → Bool → J → Except PyErr J
  | 0, _, _ => Except.error PyErr.recursionError
  | fuel + 1, srt, v =>
    match v with
    | J.obj kvs =>
      let cleanOne : J → Except PyErr J := fun w =>
        match w with
        | J.obj kvs2 => cleanDictF fuel srt (J.obj kvs2)
        | J.arr xs =>
          match exceptMapList (fun i => cleanDictF fuel srt i) xs with
          | Except.error e => Except.error e
          | Except.ok ys => Except.ok (J.arr ys)
        | J.str s => Except.ok (J.str (pyCleanStr s))
        | w => Except.ok w
      match exceptMapEntries cleanOne kvs with
      | Except.error e => Except.error e
      | Except.ok kvs2 => Except.ok (J.obj (if srt then sortKvs kvs2 else kvs2))
    | _ => Except.error PyErr.attributeError

/-- Lowercase hexadecimal digit. -/
def hexDigit (n : Nat) : Char :=
  if n < 10 then Char.ofNat (48 + n) else Char.ofNat (87 + n)

/-- Escaping of one character by `json.dumps` with `ensure_ascii=False`. -/
def escOut (c : Char) : List Char :=
  if c = '"' then ['\\', '"']
  else if c = '\\' then ['\\', '\\']
  else if c = '\n' then ['\\', 'n']
  else if c = '\r' then ['\\', 'r']
  else if c = '\t' then ['\\', 't']
  else if c = '\x08' then ['\\', 'b']
  else if c = '\x0c' then ['\\', 'f']
  else if c.toNat < 32 then ['\\', 'u', '0', '0', hexDigit (c.toNat / 16), hexDigit (c.toNat % 16)]
  else [c]

/-- A JSON string literal as written by `json.dumps(..., ensure_ascii=False)`. -/
def dumpStrLit (s : String) : String :=
  String.mk ('"' :: s.data.foldr (fun c acc => escOut c ++ acc) ['"'])

/-- Embeds `json.dumps(value, ensure_ascii=False)` with the default
separators `", "` and `": "`; numbers print their literal text.  Fuel bounds
the recursion depth as in `cleanDictF`. -/
def dumpsF : Nat → J → String
  | 0, _ => ""
  | fuel + 1, v =>
    match v with
    | J.null => "null"
    | J.jbool true => "true"
    | J.jbool false => "false"
    | J.num lit => lit
    | J.str s => dumpStrLit s
    | J.arr xs => "[" ++ String.intercalate ", " (xs.map (fun x => dumpsF fuel x)) ++ "]"
    | J.obj kvs =>
      "\x7b" ++
        String.intercalate ", " (kvs.map (fun p => dumpStrLit p.1 ++ ": " ++ dumpsF fuel p.2)) ++
        "\x7d"

/-- Embeds `json_formatter` (`src/cw_tail/formatters.py` lines 8-47).  The
options mirror `kwargs.get(...)` truthiness: an empty `removeKeys` or
`keyValuePairs` string stands for an absent or falsy option.  Only
`json.JSONDecodeError` is caught (returning the message unchanged); every
other exception escapes as an `Except.error`. -/
def jsonFormatter (message : String) (removeKeys keyValuePairs : String) (sort : Bool) :
    Except PyErr String :=
  match parseJsonTop message with
  | none => Except.ok message
  | some v0 =>
    match removePhase v0 removeKeys with
    | Except.error e => Except.error e
    | Except.ok v1 =>
      match kvPhase v1 keyValuePairs with
      | Except.error e => Except.error e
      | Except.ok v2 =>
        match cleanDictF (message.length + 1) sort v2 with
        | Except.error e => Except.error e
        | Except.ok v3 => Except.ok (dumpsF (message.length + 1) v3)

/-- C2, counterexample: the advance step is a no-op when the maximum seen
timestamp equals the current window start (the source tests `max_ts >
start_time`, not `>=`), so the claimed contract fails at `startTimeMillis =
5` with a batch whose maximum timestamp is `5`: the code leaves the window at
`5` instead of advancing it to `6`. -/
theorem c2_counterexample :
    ¬ (∀ (startTime : Int) (tss : List Int), tss ≠ [] →
        startTime ≤ listMax tss → advanceWindow startTime tss = listMax tss + 1) := by
  intro hcl
  have h := hcl 5 [5] (by simp) (by simp [listMax])
  exact absurd h (by decide)

/-- C2, amended: the advance step sets `startTimeMillis` to
`maxSeenTimestampMillis + 1` iff `maxSeenTimestampMillis >
startTimeMillis` (strict), and otherwise — in particular when the batch
maximum equals the current window start — is a no-op. -/
theorem c2_advance_strict :
    ∀ (startTime : Int) (tss : List Int), tss ≠ [] →
      ((advanceWindow startTime tss ≠ startTime ↔ startTime < listMax tss) ∧
       (startTime < listMax tss → advanceWindow startTime tss = listMax tss + 1) ∧
       (listMax tss ≤ startTime → advanceWindow startTime tss = startTime)) := by
  intro start tss h
  have he : tss.isEmpty = false := List.isEmpty_eq_false.mpr h
  by_cases hgt : start < listMax tss
  · have hval : advanceWindow start tss = listMax tss + 1 := by
      simp [advanceWindow, he, hgt]
    refine ⟨?_, fun _ => hval, fun hle => absurd hgt (not_lt.mpr hle)⟩
    rw [hval]
    constructor
    · intro _; exact hgt
    · intro _; omega
  · have hval : advanceWindow start tss = start := by
      simp [advanceWindow, he, hgt]
    refine ⟨?_, fun hg => absurd hg hgt, fun _ => hval⟩
    rw [hval]
    simp [hgt]

/-- Witness for `c2_advance_strict` at `startTimeMillis = 0` and a batch with
maximum timestamp `5`. -/
theorem c2_advance_strict_witness :
    (([5] : List Int) ≠ []) ∧
    ((advanceWindow 0 [5] ≠ 0 ↔ (0 : Int) < listMax [5]) ∧
     ((0 : Int) < listMax [5] → advanceWindow 0 [5] = listMax [5] + 1) ∧
     (listMax [5] ≤ 0 → advanceWindow 0 [5] = 0)) :=
  ⟨by simp, c2_advance_strict 0 [5] (by simp)⟩

/-- C3: the window lower bound never decreases: one advance step can only
keep or raise `start_time`, and along any sequence of processed batches the
folded window value stays at or above the initial one. -/
theorem c3_window_monotone :
    (∀ (s : Int) (tss : List Int), s ≤ advanceWindow s tss) ∧
    (∀ (batches : List (List Int)) (s : Int), s ≤ batches.foldl advanceWindow s) := by
  have step : ∀ (s : Int) (tss : List Int), s ≤ advanceWindow s tss := by
    intro s tss
    unfold advanceWindow
    split
    · exact le_refl s
    · split
      · next h => omega
      · exact le_refl s
  refine ⟨step, ?_⟩
  intro batches
  induction batches with
  | nil => intro s; simp
  | cons b bs ih =>
    intro s
    rw [List.foldl_cons]
    exact le_trans (step s b) (ih _)

/-- C8: highlight matching is word-boundary-delimited and case-insensitive:
token `err` produces no styled span on `error: kerrnel`, and on
`err occurred` it styles exactly the standalone first word (span 0-3). -/
theorem c8_whole_word :
    (highlightMultiple "error: kerrnel" [("err", "black on yellow")]).spans = [] ∧
    (highlightMultiple "err occurred" [("err", "black on yellow")]).spans =
      [(0, 3, "black on yellow")] :=
  ⟨by decide, by decide⟩

/-- C9: `parse_time_string` returns 900 for "15m", 7200 for "2h", 10 for
"10s", and the 3600 default on every input the regex
`^(\d+)([hms])$` rejects, including "abc", "" and "15". -/
theorem c9_parse_time :
    (parseTimeString "15m" = 900 ∧ parseTimeString "2h" = 7200 ∧
     parseTimeString "10s" = 10 ∧ parseTimeString "abc" = 3600 ∧
     parseTimeString "" = 3600 ∧ parseTimeString "15" = 3600) ∧
    (∀ s : String, timeRe (pyStrip s) = none → parseTimeString s = 3600) := by
  refine ⟨⟨by decide, by decide, by decide, by decide, by decide, by decide⟩, ?_⟩
  intro s h
  unfold parseTimeString
  rw [h]

/-- Witness for `c9_parse_time` on the malformed input "1x". -/
theorem c9_parse_time_witness :
    timeRe (pyStrip "1x") = none ∧ parseTimeString "1x" = 3600 :=
  ⟨by decide, c9_parse_time.2 "1x" (by decide)⟩

/-- C6: `json_formatter` does not satisfy "never raises": only
`json.JSONDecodeError` is caught, so the valid JSON messages `[1, 2]` (a
top-level list) and `{"a": [1, 2]}` (an object holding a list of numbers)
escape with `AttributeError` from `clean_dict` instead of being returned
unchanged.  Strings that are not valid JSON are returned unchanged, as
claimed. -/
theorem c6_formatter_behavior :
    jsonFormatter "[1, 2]" "" "" false = Except.error PyErr.attributeError ∧
    jsonFormatter "\x7b\"a\": [1, 2]\x7d" "" "" false = Except.error PyErr.attributeError ∧
    jsonFormatter "not json" "" "" false = Except.ok "not json" ∧
    (∀ (s rk kvp : String) (srt : Bool),
        parseJsonTop s = none → jsonFormatter s rk kvp srt = Except.ok s) := by
  refine ⟨rfl, rfl, rfl, ?_⟩
  intro s rk kvp srt h
  unfold jsonFormatter
  rw [h]

/-- Witness for `c6_formatter_behavior` on a non-JSON message. -/
theorem c6_formatter_behavior_witness :
    parseJsonTop "not a json message" = none ∧
    jsonFormatter "not a json message" "" "" false = Except.ok "not a json message" :=
  ⟨rfl, c6_formatter_behavior.2.2.2 "not a json message" "" "" false rfl⟩

/-- Soundness of the match scan: every reported span starts at or after the
scan position, has the length of the literal, and the literal occurs
case-insensitively at its start. -/
theorem findIterGo_sound (lit : List Char) :
    ∀ (fuel : Nat) (s : List Char) (prev : Option Char) (pos a b : Nat),
      (a, b) ∈ findIterGo fuel lit prev s pos →
      pos ≤ a ∧ b = a + lit.length ∧ ciStarts lit (s.drop (a - pos)) = true := by
  intro fuel
  induction fuel with
  | zero =>
    intro s prev pos a b h
    simp [findIterGo] at h
  | succ n ih =>
    intro s prev pos a b h
    cases s with
    | nil => simp [findIterGo] at h
    | cons c rest =>
      simp only [findIterGo] at h
      by_cases hc : (!lit.isEmpty && matchAt lit prev (c :: rest)) = true
      · rw [if_pos hc] at h
        rcases List.mem_cons.mp h with heq | hmem
        · have ha : a = pos := congrArg Prod.fst heq
          have hb : b = pos + lit.length := congrArg Prod.snd heq
          subst ha
          refine ⟨le_refl a, by omega, ?_⟩
          have hci : ciStarts lit (c :: rest) = true := by
            simp only [Bool.and_eq_true] at hc
            have hm := hc.2
            unfold matchAt at hm
            simp only [Bool.and_eq_true] at hm
            exact hm.1.2
          simpa using hci
        · obtain ⟨h1, h2, h3⟩ := ih _ _ _ a b hmem
          refine ⟨by omega, h2, ?_⟩
          have hd : a - pos = lit.length + (a - (pos + lit.length)) := by omega
          rw [hd, ← List.drop_drop]
          exact h3
      · rw [if_neg hc] at h
        obtain ⟨h1, h2, h3⟩ := ih _ _ _ a b h
        refine ⟨by omega, h2, ?_⟩
        have hd : a - pos = (a - (pos + 1)) + 1 := by omega
        rw [hd, List.drop_succ_cons]
        exact h3

/-- C7, counterexample: with the invalid-regex token "(unbalanced" the
fallback pattern is still wrapped in `\b` assertions, so on the message
"(unbalanced" — which contains the literal substring — no occurrence is
styled (position 0 is not a word boundary: both sides are non-word), refuting
"exactly the literal occurrences of the substring are styled". -/
theorem c7_counterexample :
    containsSub "(unbalanced" "(unbalanced" = true ∧
    (highlightMultiple "(unbalanced" [("(unbalanced", "black on yellow")]).spans = [] :=
  ⟨by decide, by decide⟩

/-- C7, amended: highlighting never raises and never alters the message text;
a token that fails to compile as a regex degrades to auto-escaped literal
matching still wrapped in word boundaries, so every styled span for the token
"(unbalanced" is a case-insensitive occurrence of that literal (of its length
11), but only boundary-delimited occurrences are styled: the occurrence after
a word character in "x(unbalanced;" is styled, while the occurrence at the
start of "(unbalanced" is not (`c7_counterexample`). -/
theorem c7_literal_fallback :
    (∀ (msg : String) (ts : List (String × String)), (highlightMultiple msg ts).text = msg) ∧
    (∀ (msg sty : String) (a b : Nat) (sty2 : String),
        (a, b, sty2) ∈ (highlightMultiple msg [("(unbalanced", sty)]).spans →
        b = a + 11 ∧ ciStarts "(unbalanced".data (msg.data.drop a) = true) ∧
    (highlightMultiple "x(unbalanced;" [("(unbalanced", "black on yellow")]).spans =
      [(1, 12, "black on yellow")] := by
  refine ⟨fun msg ts => rfl, ?_, by decide⟩
  intro msg sty a b sty2 hmem
  have hmem2 : (a, b) ∈ findIter "(unbalanced" msg := by
    simp only [highlightMultiple, List.foldl_cons, List.foldl_nil, List.nil_append] at hmem
    obtain ⟨p, hp, heq⟩ := List.mem_map.mp hmem
    have ha : p.1 = a := congrArg (fun q => q.1) heq
    have hb : p.2 = b := congrArg (fun q => q.2.1) heq
    have : p = (a, b) := by
      cases p
      simp_all
    exact this ▸ hp
  have hs := findIterGo_sound "(unbalanced".data (msg.length + 1) msg.data none 0 a b hmem2
  obtain ⟨-, h2, h3⟩ := hs
  constructor
  · rw [h2]
    norm_num [String.data]
  · simpa using h3

/-- Witness for `c7_literal_fallback` at the styled occurrence in
"x(unbalanced;". -/
theorem c7_literal_fallback_witness :
    ((1, 12, "black on yellow") ∈
      (highlightMultiple "x(unbalanced;" [("(unbalanced", "black on yellow")]).spans) ∧
    (12 = 1 + 11 ∧ ciStarts "(unbalanced".data ("x(unbalanced;".data.drop 1) = true) :=
  ⟨by decide,
   c7_literal_fallback.2.1 "x(unbalanced;" "black on yellow" 1 12 "black on yellow" (by decide)⟩

/-- The chunked fetch loop issues exactly one call per chunk. -/
theorem fetchChunks_reqs_length (api : FetchReq → FetchResp) (start : Int) :
    ∀ (cs : List (List String)) (tok : Option String),
      (fetchChunks api start cs tok).reqs.length = cs.length := by
  intro cs
  induction cs with
  | nil => intro tok; rfl
  | cons c cs ih => intro tok; simp [fetchChunks, ih]

/-- The batch gathered by the chunked fetch loop is the concatenation of the
per-call responses, in call order. -/
theorem fetchChunks_events (api : FetchReq → FetchResp) (start : Int) :
    ∀ (cs : List (List String)) (tok : Option String),
      (fetchChunks api start cs tok).events =
        ((fetchChunks api start cs tok).reqs.map (fun r => (api r).events)).flatten := by
  intro cs
  induction cs with
  | nil => intro tok; rfl
  | cons c cs ih => intro tok; simp [fetchChunks, ih]

/-- The first call of the chunked fetch loop carries the incoming token. -/
theorem fetchChunks_head (api : FetchReq → FetchResp) (start : Int) (c : List String)
    (cs : List (List String)) (tok : Option String) :
    (fetchChunks api start (c :: cs) tok).reqs.head? = some ⟨start, some c, tok⟩ := rfl

/-- Along the chunked fetch loop, each call after the first carries exactly
the continuation token returned by the previous call. -/
theorem fetchChunks_chain (api : FetchReq → FetchResp) (start : Int) :
    ∀ (cs : List (List String)) (tok : Option String),
      List.Chain' (fun r1 r2 => r2.token = (api r1).nextToken)
        (fetchChunks api start cs tok).reqs := by
  intro cs
  induction cs with
  | nil => intro tok; simp [fetchChunks]
  | cons c cs ih =>
    intro tok
    have hrw : (fetchChunks api start (c :: cs) tok).reqs =
        ⟨start, some c, tok⟩ ::
          (fetchChunks api start cs (api ⟨start, some c, tok⟩).nextToken).reqs := rfl
    rw [hrw, List.chain'_cons']
    refine ⟨?_, ih _⟩
    intro y hy
    cases cs with
    | nil => simp [fetchChunks] at hy
    | cons c2 cs2 =>
      rw [fetchChunks_head] at hy
      simp only [Option.mem_def, Option.some.injEq] at hy
      rw [← hy]

/-- After the chunked fetch loop, the stored token is the continuation token
returned by the last call. -/
theorem fetchChunks_last (api : FetchReq → FetchResp) (start : Int) :
    ∀ (cs : List (List String)) (tok : Option String), cs ≠ [] →
      (fetchChunks api start cs tok).reqs.getLast?.map (fun r => (api r).nextToken) =
        some (fetchChunks api start cs tok).token := by
  intro cs
  induction cs with
  | nil => intro tok h; simp at h
  | cons c cs ih =>
    intro tok _
    cases cs with
    | nil => rfl
    | cons c2 cs2 =>
      have hrw : (fetchChunks api start (c :: c2 :: cs2) tok).reqs =
          ⟨start, some c, tok⟩ ::
            (fetchChunks api start (c2 :: cs2) (api ⟨start, some c, tok⟩).nextToken).reqs := rfl
      have htok : (fetchChunks api start (c :: c2 :: cs2) tok).token =
          (fetchChunks api start (c2 :: cs2) (api ⟨start, some c, tok⟩).nextToken).token := rfl
      have hrw2 : (fetchChunks api start (c2 :: cs2) (api ⟨start, some c, tok⟩).nextToken).reqs =
          ⟨start, some c2, (api ⟨start, some c, tok⟩).nextToken⟩ ::
            (fetchChunks api start cs2
              (api ⟨start, some c2, (api ⟨start, some c, tok⟩).nextToken⟩).nextToken).reqs := rfl
      have ih2 := ih ((api ⟨start, some c, tok⟩).nextToken) (by simp)
      rw [hrw, htok, hrw2, List.getLast?_cons_cons, ← hrw2]
      exact ih2

/-- One unfolding step of the chunking loop on a non-empty list. -/
theorem chunkListGo_step (fuel : Nat) (l : List α) (n : Nat) (h : l.isEmpty = false) :
    chunkListGo (fuel + 1) l n = l.take n :: chunkListGo fuel (l.drop n) n := by
  simp [chunkListGo, h]

/-- The chunking loop produces nothing from an empty list. -/
theorem chunkListGo_nil (fuel n : Nat) : chunkListGo fuel ([] : List α) n = [] := by
  cases fuel <;> rfl

/-- A non-empty stream list produces a non-empty chunk list with the full
first slice in front. -/
theorem chunkList_cons_of_ne_nil (l : List String) (n : Nat) (h : l ≠ []) :
    chunkList l n = l.take n :: chunkListGo (l.length - 1) (l.drop n) n := by
  cases l with
  | nil => exact absurd rfl h
  | cons a t =>
    show chunkListGo (t.length + 1) (a :: t) n = _
    simp [chunkListGo]

/-- C1 (amended): within one polling iteration each chunk issues exactly one
`filter_log_events` call (there is no inner pagination loop), the first call
carries the token left over from the previous polling iteration, each later
call carries the continuation token returned by the immediately preceding
chunk call, and the token returned by the last call is stored in the loop
state, to be retained into the next polling iteration. -/
theorem c1_token_threading :
    ∀ (api : FetchReq → FetchResp) (st : TailState) (streams : List String),
      streams ≠ [] →
      ((fetchPhase api st streams).reqs.length = (chunkList streams 100).length ∧
       (fetchPhase api st streams).reqs.head?.map FetchReq.token = some st.nextToken ∧
       List.Chain' (fun r1 r2 => r2.token = (api r1).nextToken) (fetchPhase api st streams).reqs ∧
       (fetchPhase api st streams).reqs.getLast?.map (fun r => (api r).nextToken) =
         some (fetchPhase api st streams).token ∧
       (tailIter api [] st streams).state.nextToken = (fetchPhase api st streams).token) := by
  intro api st streams hne
  have hie : streams.isEmpty = false := List.isEmpty_eq_false.mpr hne
  have hfp : fetchPhase api st streams =
      fetchChunks api st.startTime (chunkList streams 100) st.nextToken := by
    simp [fetchPhase, hie]
  have hch : chunkList streams 100 =
      streams.take 100 :: chunkListGo (streams.length - 1) (streams.drop 100) 100 :=
    chunkList_cons_of_ne_nil streams 100 hne
  refine ⟨?_, ?_, ?_, ?_, rfl⟩
  · rw [hfp]; exact fetchChunks_reqs_length api st.startTime _ _
  · rw [hfp, hch, fetchChunks_head]; rfl
  · rw [hfp]; exact fetchChunks_chain api st.startTime _ _
  · rw [hfp]
    refine fetchChunks_last api st.startTime _ _ ?_
    rw [hch]
    simp

/-- Witness for `c1_token_threading` with a single stream. -/
theorem c1_token_threading_witness :
    ((["a"] : List String) ≠ []) ∧
    ((fetchPhase (fun _ => ⟨[], none⟩) ⟨0, none⟩ ["a"]).reqs.length =
       (chunkList ["a"] 100).length ∧
     (fetchPhase (fun _ => ⟨[], none⟩) ⟨0, none⟩ ["a"]).reqs.head?.map FetchReq.token =
       some (TailState.mk 0 none).nextToken ∧
     List.Chain' (fun r1 r2 => r2.token = ((fun _ => (⟨[], none⟩ : FetchResp)) r1).nextToken)
       (fetchPhase (fun _ => ⟨[], none⟩) ⟨0, none⟩ ["a"]).reqs ∧
     (fetchPhase (fun _ => ⟨[], none⟩) ⟨0, none⟩ ["a"]).reqs.getLast?.map
         (fun r => ((fun _ => (⟨[], none⟩ : FetchResp)) r).nextToken) =
       some (fetchPhase (fun _ => ⟨[], none⟩) ⟨0, none⟩ ["a"]).token ∧
     (tailIter (fun _ => ⟨[], none⟩) [] ⟨0, none⟩ ["a"]).state.nextToken =
       (fetchPhase (fun _ => ⟨[], none⟩) ⟨0, none⟩ ["a"]).token) :=
  ⟨by simp, c1_token_threading (fun _ => ⟨[], none⟩) ⟨0, none⟩ ["a"] (by simp)⟩

/-- C1, counterexample: with an API whose every response carries continuation
token "t1" and 150 included streams (two chunks), the second chunk call is
issued with the token returned by the first chunk call, and the first call of
the next polling iteration is issued with the token left over from the
previous iteration — the token is carried both between chunks and across
polling iterations, and no chunk paginates until exhaustion. -/
theorem c1_counterexample :
    (let api : FetchReq → FetchResp := fun _ => ⟨[], some "t1"⟩
     let streams := List.replicate 150 "s"
     ((fetchPhase api ⟨0, none⟩ streams).reqs.map FetchReq.token = [none, some "t1"]) ∧
     ((fetchPhase api (tailIter api [] ⟨0, none⟩ streams).state streams).reqs.head?.map
        FetchReq.token = some (some "t1"))) := by
  set_option maxRecDepth 4000 in decide

/-- C4: with 250 included stream names and the per-call cap of 100, one
polling iteration issues exactly 3 chunk calls whose stream lists have sizes
100, 100 and 50; the batch handed to the pipeline is the concatenation of the
three calls' events and is duplicate-free whenever the per-call results are
duplicate-free and pairwise disjoint. -/
theorem c4_chunking :
    ∀ (api : FetchReq → FetchResp) (st : TailState) (streams : List String),
      streams.length = 250 →
      ((chunkList streams 100).map List.length = [100, 100, 50] ∧
       (tailIter api [] st streams).reqs.length = 3 ∧
       (fetchPhase api st streams).events =
         ((fetchPhase api st streams).reqs.map (fun r => (api r).events)).flatten ∧
       (tailIter api [] st streams).rendered = (fetchPhase api st streams).events ∧
       ((∀ r ∈ (fetchPhase api st streams).reqs, ((api r).events).Nodup) →
        List.Pairwise List.Disjoint ((fetchPhase api st streams).reqs.map (fun r => (api r).events)) →
        (fetchPhase api st streams).events.Nodup)) := by
  intro api st streams hlen
  have hne : streams ≠ [] := by
    intro e; rw [e] at hlen; simp at hlen
  have hie : streams.isEmpty = false := List.isEmpty_eq_false.mpr hne
  have hfp : fetchPhase api st streams =
      fetchChunks api st.startTime (chunkList streams 100) st.nextToken := by
    simp [fetchPhase, hie]
  have hmaplen : (chunkList streams 100).map List.length = [100, 100, 50] := by
    unfold chunkList
    rw [hlen, show (250 : Nat) = 249 + 1 from rfl]
    have h1 : streams.isEmpty = false := hie
    have hd1 : (streams.drop 100).length = 150 := by rw [List.length_drop, hlen]
    have h2 : (streams.drop 100).isEmpty = false := by
      apply List.isEmpty_eq_false.mpr
      intro e; rw [e] at hd1; simp at hd1
    have hd2 : ((streams.drop 100).drop 100).length = 50 := by rw [List.length_drop, hd1]
    have h3 : ((streams.drop 100).drop 100).isEmpty = false := by
      apply List.isEmpty_eq_false.mpr
      intro e; rw [e] at hd2; simp at hd2
    have hd3 : ((streams.drop 100).drop 100).drop 100 = [] := by
      apply List.length_eq_zero.mp
      rw [List.length_drop, hd2]
    rw [chunkListGo_step 249 streams 100 h1,
      show (249 : Nat) = 248 + 1 from rfl, chunkListGo_step 248 _ 100 h2,
      show (248 : Nat) = 247 + 1 from rfl, chunkListGo_step 247 _ 100 h3,
      hd3, chunkListGo_nil]
    simp only [List.map_cons, List.map_nil, List.length_take, hlen, hd1, hd2]
    norm_num
  have hreqlen : (fetchPhase api st streams).reqs.length = 3 := by
    rw [hfp, fetchChunks_reqs_length]
    have := congrArg List.length hmaplen
    simpa using this
  refine ⟨hmaplen, hreqlen, ?_, rfl, ?_⟩
  · rw [hfp]; exact fetchChunks_events api st.startTime _ _
  · intro hnd hdisj
    rw [hfp, fetchChunks_events api st.startTime _ _]
    apply List.nodup_flatten.mpr
    refine ⟨?_, by rw [hfp] at hdisj; exact hdisj⟩
    intro l hl
    obtain ⟨r, hr, hrl⟩ := List.mem_map.mp hl
    rw [← hrl]
    rw [← hfp] at hr
    exact hnd r hr

/-- Witness for `c4_chunking` on 250 replicated stream names. -/
theorem c4_chunking_witness :
    (List.replicate 250 "s").length = 250 ∧
    ((chunkList (List.replicate 250 "s") 100).map List.length = [100, 100, 50] ∧
     (tailIter (fun _ => ⟨[], none⟩) [] ⟨0, none⟩ (List.replicate 250 "s")).reqs.length = 3 ∧
     (fetchPhase (fun _ => ⟨[], none⟩) ⟨0, none⟩ (List.replicate 250 "s")).events =
       ((fetchPhase (fun _ => ⟨[], none⟩) ⟨0, none⟩ (List.replicate 250 "s")).reqs.map
          (fun r => ((fun _ => (⟨[], none⟩ : FetchResp)) r).events)).flatten ∧
     (tailIter (fun _ => ⟨[], none⟩) [] ⟨0, none⟩ (List.replicate 250 "s")).rendered =
       (fetchPhase (fun _ => ⟨[], none⟩) ⟨0, none⟩ (List.replicate 250 "s")).events ∧
     ((∀ r ∈ (fetchPhase (fun _ => ⟨[], none⟩) ⟨0, none⟩ (List.replicate 250 "s")).reqs,
          (((fun _ => (⟨[], none⟩ : FetchResp)) r).events).Nodup) →
      List.Pairwise List.Disjoint
        ((fetchPhase (fun _ => ⟨[], none⟩) ⟨0, none⟩ (List.replicate 250 "s")).reqs.map
          (fun r => ((fun _ => (⟨[], none⟩ : FetchResp)) r).events)) →
      (fetchPhase (fun _ => ⟨[], none⟩) ⟨0, none⟩ (List.replicate 250 "s")).events.Nodup)) :=
  ⟨by rw [List.length_replicate],
   c4_chunking (fun _ => ⟨[], none⟩) ⟨0, none⟩ (List.replicate 250 "s")
     (by rw [List.length_replicate])⟩

/-- C5 (amended): the legacy tailer (`src/cw_tail.py`, whose fetch is always
unscoped) applies client-side stream-name exclusion — no line is rendered for
an event whose stream name contains a configured exclude substring — while
the package tailer (`src/cw_tail/cw_tail.py`) applies none: an unscoped
iteration renders every fetched event surviving the message-token filter,
regardless of its stream name. -/
theorem c5_stream_exclusion :
    (∀ (events : List LogEvent) (et es : List String) (e : LogEvent),
        e ∈ legacyRendered events et es → es ≠ [] →
        ∀ x ∈ es, containsSub e.logStreamName x = false) ∧
    (∀ (api : FetchReq → FetchResp) (et : List String) (st : TailState),
        (tailIter api et st []).rendered =
          excludeByTokens (api ⟨st.startTime, none, st.nextToken⟩).events et) := by
  constructor
  · intro events et es e hmem hes x hx
    simp only [legacyRendered] at hmem
    have h2 := (List.mem_filter.mp hmem).2
    have hesb : es.isEmpty = false := List.isEmpty_eq_false.mpr hes
    rw [hesb] at h2
    simp only [Bool.not_false, Bool.true_and, Bool.not_eq_true'] at h2
    simpa using List.any_eq_false.mp h2 x hx
  · intro api et st
    rfl

/-- C5, counterexample: configure `exclude_streams = ["x"]` against a log
group whose only stream is "xa".  Every stream matches the exclusion, so
`_get_included_streams` returns the empty list, the fetch is unscoped, and
the package tailer renders the fetched event of stream "xa" even though its
name contains the exclude substring "x". -/
theorem c5_counterexample :
    (let api : FetchReq → FetchResp := fun _ => ⟨[⟨1, "m", "xa"⟩], none⟩
     getIncludedStreams ["xa"] ["x"] = [] ∧
     containsSub "xa" "x" = true ∧
     (tailIter api [] ⟨0, none⟩ (getIncludedStreams ["xa"] ["x"])).rendered =
       [⟨1, "m", "xa"⟩]) := by
  decide

/-- Witness for `c5_stream_exclusion` on a one-event batch. -/
theorem c5_stream_exclusion_witness :
    ((⟨1, "m", "ok"⟩ : LogEvent) ∈ legacyRendered [⟨1, "m", "ok"⟩] [] ["x"]) ∧
    (∀ x ∈ (["x"] : List String),
        containsSub (LogEvent.logStreamName ⟨1, "m", "ok"⟩) x = false) :=
  ⟨by decide,
   c5_stream_exclusion.1 [⟨1, "m", "ok"⟩] [] ["x"] ⟨1, "m", "ok"⟩ (by decide) (by simp)⟩

/-- The `remove_keys` loop maps a dict to a sublist of its own top-level
members: the surviving members are the original pairs, values included. -/
theorem foldExcept_removeOne_sublist :
    ∀ (keys : List String) (kvs : List (String × J)) (w : J),
      foldExcept removeOne (J.obj kvs) keys = Except.ok w →
      ∃ kvs2, w = J.obj kvs2 ∧ kvs2.Sublist kvs := by
  intro keys
  induction keys with
  | nil =>
    intro kvs w h
    simp only [foldExcept] at h
    exact ⟨kvs, (Except.ok.injEq .. ▸ h).symm, List.Sublist.refl kvs⟩
  | cons k ks ih =>
    intro kvs w h
    simp only [foldExcept] at h
    by_cases hc : kvs.any (fun p => p.1 == k)
    · rw [show removeOne (J.obj kvs) k =
          Except.ok (J.obj (kvs.eraseP (fun p => p.1 == k))) from by simp [removeOne, hc]] at h
      obtain ⟨kvs2, hw, hs⟩ := ih _ _ h
      exact ⟨kvs2, hw, hs.trans (List.eraseP_sublist _)⟩
    · rw [show removeOne (J.obj kvs) k = Except.ok (J.obj kvs) from by simp [removeOne, hc]] at h
      exact ih _ _ h

/-- The `key_value_pairs` loop maps a dict to a sublist of its own top-level
members. -/
theorem foldExcept_kvOne_sublist :
    ∀ (pairs : List String) (kvs : List (String × J)) (w : J),
      foldExcept kvOne (J.obj kvs) pairs = Except.ok w →
      ∃ kvs2, w = J.obj kvs2 ∧ kvs2.Sublist kvs := by
  intro pairs
  induction pairs with
  | nil =>
    intro kvs w h
    simp only [foldExcept] at h
    exact ⟨kvs, (Except.ok.injEq .. ▸ h).symm, List.Sublist.refl kvs⟩
  | cons pr prs ih =>
    intro kvs w h
    simp only [foldExcept] at h
    rcases hsp : splitColon1 (pyStrip pr) with _ | ⟨k, val⟩
    · rw [show kvOne (J.obj kvs) pr = Except.error PyErr.valueError from by
        simp [kvOne, hsp]] at h
      simp at h
    · rcases hf : kvs.find? (fun p => p.1 == k) with _ | p
      · rw [show kvOne (J.obj kvs) pr = Except.ok (J.obj kvs) from by
          simp [kvOne, hsp, hf]] at h
        exact ih _ _ h
      · by_cases hv : pyEqStr p.2 val
        · rw [show kvOne (J.obj kvs) pr =
              Except.ok (J.obj (kvs.eraseP (fun q => q.1 == k))) from by
            simp [kvOne, hsp, hf, hv]] at h
          obtain ⟨kvs2, hw, hs⟩ := ih _ _ h
          exact ⟨kvs2, hw, hs.trans (List.eraseP_sublist _)⟩
        · rw [show kvOne (J.obj kvs) pr = Except.ok (J.obj kvs) from by
            simp [kvOne, hsp, hf, hv]] at h
          exact ih _ _ h

/-- C10: the `remove_keys` and `key_value_pairs` options act on the top level
of the parsed object only: whenever a phase succeeds, the resulting object is
a sublist of the original top-level member list — every surviving member
keeps its original value unchanged, so a key of the same name inside a nested
object or a list element is never removed.  The closed instance removes the
top-level "a" while both nested "a" keys survive. -/
theorem c10_top_level_removal :
    (∀ (kvs : List (String × J)) (rk : String) (w : J),
        removePhase (J.obj kvs) rk = Except.ok w →
        ∃ kvs2, w = J.obj kvs2 ∧ kvs2.Sublist kvs) ∧
    (∀ (kvs : List (String × J)) (kvp : String) (w : J),
        kvPhase (J.obj kvs) kvp = Except.ok w →
        ∃ kvs2, w = J.obj kvs2 ∧ kvs2.Sublist kvs) ∧
    jsonFormatter "\x7b\"a\": 1, \"b\": \x7b\"a\": 2\x7d, \"c\": [\x7b\"a\": 3\x7d]\x7d"
        "a" "" false =
      Except.ok "\x7b\"b\": \x7b\"a\": 2\x7d, \"c\": [\x7b\"a\": 3\x7d]\x7d" := by
  refine ⟨?_, ?_, rfl⟩
  · intro kvs rk w h
    unfold removePhase at h
    by_cases he : rk.isEmpty
    · rw [if_pos he] at h
      exact ⟨kvs, (Except.ok.injEq .. ▸ h).symm, List.Sublist.refl kvs⟩
    · rw [if_neg he] at h
      exact foldExcept_removeOne_sublist _ _ _ h
  · intro kvs kvp w h
    unfold kvPhase at h
    by_cases he : kvp.isEmpty
    · rw [if_pos he] at h
      exact ⟨kvs, (Except.ok.injEq .. ▸ h).symm, List.Sublist.refl kvs⟩
    · rw [if_neg he] at h
      exact foldExcept_kvOne_sublist _ _ _ h

/-- Witness for `c10_top_level_removal`: removing key "a" from an object that
also holds "a" inside a nested object. -/
theorem c10_top_level_removal_witness :
    (removePhase (J.obj [("a", J.num "1"), ("b", J.obj [("a", J.num "2")])]) "a" =
      Except.ok (J.obj [("b", J.obj [("a", J.num "2")])])) ∧
    (∃ kvs2, (J.obj [("b", J.obj [("a", J.num "2")])] : J) = J.obj kvs2 ∧
      kvs2.Sublist [("a", J.num "1"), ("b", J.obj [("a", J.num "2")])]) :=
  ⟨rfl, c10_top_level_removal.1 [("a", J.num "1"), ("b", J.obj [("a", J.num "2")])] "a"
    (J.obj [("b", J.obj [("a", J.num "2")])]) rfl⟩

